import Mathlib

/-!
# Verification of the `plugins` operator package

A shallow embedding, in Lean, of the plugin-management operators defined in
`plugins/plugins/__init__.py`: installing plugins, toggling plugin enablement,
checking package requirements, hydrating plugin metadata, and scaffolding a new
operator skeleton.  Python functions become Lean functions; calls into the host
application and into external collaborators (`fiftyone.plugins`, `packaging`,
`importlib.metadata`, the filesystem) become explicit function parameters or
explicit result values; raised exceptions become `Except` values.
-/

namespace FoPlugins

/-! ## Generic Python-style helpers -/

/-- Python `dict` assignment `m[k] = v` on an insertion-ordered association
list (keys are unique, as in a `dict`): an existing key keeps its position
and gets the new value; a missing key is appended at the end. -/
def dictSet {α : Type} : List (String × α) → String → α → List (String × α)
  | [], k, v => [(k, v)]
  | kv :: rest, k, v =>
      if kv.1 = k then (k, v) :: rest else kv :: dictSet rest k v

/-- Python `dict` lookup `m.get(k)` on an association list. -/
def alookup {α : Type} (m : List (String × α)) (k : String) : Option α :=
  (m.find? (fun kv => kv.1 = k)).map (fun kv => kv.2)

/-- How Python renders a `bool` inside an f-string. -/
def pyBool (b : Bool) : String := if b then "True" else "False"

/-! ## Python string primitives used by the skeleton builder

These mirror the Python/stdlib string operations the source relies on
(`str.replace`, `str.split("\n")`, `str.strip`, `str.title`,
`textwrap.dedent`, `re.sub`, `os.path.join`), implemented structurally over
character lists. -/

/-- Python `s.replace(pat, repl)` (for a non-empty `pat`, as in every use
here): scan left to right and substitute each non-overlapping occurrence. -/
def charsReplace (pat repl : List Char) : List Char → List Char
  | [] => []
  | c :: cs =>
      if _h : pat != [] && pat.isPrefixOf (c :: cs) then
        repl ++ charsReplace pat repl ((c :: cs).drop pat.length)
      else c :: charsReplace pat repl cs
termination_by l => l.length
decreasing_by
  · simp only [Bool.and_eq_true, bne_iff_ne, ne_eq] at _h
    have hp : 1 ≤ pat.length := by
      cases pat with
      | nil => exact absurd rfl _h.1
      | cons a t => simp
    rw [List.length_drop]
    simp only [List.length_cons]
    omega
  · simp

/-- Python `s.replace(pat, repl)` on strings. -/
def pyReplace (s pat repl : String) : String :=
  String.mk (charsReplace pat.toList repl.toList s.toList)

/-- Python `s.split("\n")`. -/
def splitCharsOnNl : List Char → List (List Char)
  | [] => [[]]
  | c :: cs =>
      if c = '\n' then [] :: splitCharsOnNl cs
      else
        match splitCharsOnNl cs with
        | l :: ls => (c :: l) :: ls
        | [] => [[c]]

/-- `"\n".join(lines)`. -/
def joinLinesNl : List (List Char) → List Char
  | [] => []
  | [l] => l
  | l :: ls => l ++ '\n' :: joinLinesNl ls

/-- Python whitespace (`str.strip` with no argument), ASCII range. -/
def isPySpace (c : Char) : Bool :=
  c = ' ' || c = '\t' || c = '\n' || c = '\r' || c = '\x0b' || c = '\x0c'

/-- Python `s.strip()`. -/
def pyStrip (s : String) : String :=
  String.mk (((s.toList.dropWhile isPySpace).reverse.dropWhile
    isPySpace).reverse)

/-- Python `s.startswith(pre)`. -/
def pyStartsWith (s pre : String) : Bool := pre.toList.isPrefixOf s.toList

/-- Python `s.endswith(post)`. -/
def pyEndsWith (s post : String) : Bool := post.toList.isSuffixOf s.toList

/-- A line matched by `textwrap.dedent`'s whitespace-only regex
`^[ \t]+$`. -/
def isWhitespaceOnlyLine (l : List Char) : Bool :=
  l != [] && l.all (fun c => c = ' ' || c = '\t')

/-- The leading run of spaces/tabs of a line. -/
def leadingIndent (l : List Char) : List Char :=
  l.takeWhile (fun c => c = ' ' || c = '\t')

/-- Longest common prefix of two character lists. -/
def commonPrefixChars : List Char → List Char → List Char
  | a :: as, b :: bs => if a = b then a :: commonPrefixChars as bs else []
  | _, _ => []

/-- `textwrap.dedent`: whitespace-only lines are emptied, the longest common
leading space/tab prefix of the remaining lines is the margin, and the
margin is stripped from every line that starts with it. -/
def dedent (text : String) : String :=
  let lines := (splitCharsOnNl text.toList).map
    (fun l => if isWhitespaceOnlyLine l then [] else l)
  let indents := (lines.filter (fun l => l != [])).map leadingIndent
  let margin :=
    match indents with
    | [] => ([] : List Char)
    | ind :: rest => rest.foldl commonPrefixChars ind
  let lines2 := lines.map
    (fun l => if margin.isPrefixOf l then l.drop margin.length else l)
  String.mk (joinLinesNl lines2)

theorem length_dropWhile_le_self (p : Char → Bool) (l : List Char) :
    (l.dropWhile p).length ≤ l.length := by
  induction l with
  | nil => simp [List.dropWhile]
  | cons a t ih =>
      rw [List.dropWhile_cons]
      by_cases h : p a = true
      · rw [if_pos h]
        exact Nat.le_trans ih (by simp)
      · rw [if_neg h]

/-- `re.sub(r"\n\x7b3,\x7d", "\n\n", ...)` on the character list: every
maximal run of three or more newlines becomes exactly two. -/
def replaceExtraNewlinesAux : List Char → List Char
  | [] => []
  | c :: cs =>
      if c = '\n' then
        (if (cs.takeWhile (fun d => d = '\n')).length + 1 ≥ 3 then
           ['\n', '\n']
         else List.replicate ((cs.takeWhile (fun d => d = '\n')).length + 1)
           '\n') ++
          replaceExtraNewlinesAux (cs.dropWhile (fun d => d = '\n'))
      else c :: replaceExtraNewlinesAux cs
termination_by l => l.length
decreasing_by
  · simp only [List.length_cons]
    have h := length_dropWhile_le_self (fun d => d = '\n') cs
    omega
  · simp

/-- `replace_extra_newlines(text)` (source lines 1636-1637). -/
def replace_extra_newlines (text : String) : String :=
  String.mk (replaceExtraNewlinesAux text.toList)

/-- `indent_code(code)` (source lines 1626-1633): dedent, then prefix every
line with four spaces. -/
def indent_code (code : String) : String :=
  "    " ++ pyReplace (dedent code) "\n" "\n    "

/-- Python `str.title()` restricted to ASCII: an alphabetic character is
uppercased after a non-alphabetic character and lowercased otherwise. -/
def pyTitleAux : List Char → Bool → List Char
  | [], _ => []
  | c :: cs, prevCased =>
      if c.isAlpha then
        (if prevCased then c.toLower else c.toUpper) :: pyTitleAux cs true
      else c :: pyTitleAux cs false

def pyTitle (s : String) : String := String.mk (pyTitleAux s.toList false)

/-- `os.path.join(a, b)` for POSIX paths: an absolute second argument wins;
otherwise the parts are joined with a single `/` unless `a` is empty or
already ends with `/`. -/
def pyJoin (a b : String) : String :=
  if pyStartsWith b "/" then b
  else if a == "" || pyEndsWith a "/" then a ++ b
  else a ++ "/" ++ b

/-! ## Plugin enablement (`_plugin_enablement`, source lines 395-414)

`manage_plugins` on the ENABLEMENT tab reads parameters `enablement1`,
`enablement2`, ... until the first missing index; each entry carries the
hidden plugin `name` and the submitted `enabled` switch. -/

/-- A submitted `enablementI` form object: the hidden `name` field and the
`enabled` switch, as built by `_plugin_enablement_inputs`. -/
structure EnablementEntry where
  name : String
  enabled : Bool
deriving DecidableEq, Repr

/-- An enablement side effect issued by `_plugin_enablement`:
a call to `fop.enable_plugin` or `fop.disable_plugin`. -/
inductive EnablementCall where
  | enable (name : String)
  | disable (name : String)
deriving DecidableEq, Repr

/-- The plugin name an enablement call acts on. -/
def callName : EnablementCall → String
  | .enable n => n
  | .disable n => n

/-- The calls made by one iteration of the `_plugin_enablement` loop body:
compare the submitted flag against membership in the initial
`fop.list_enabled_plugins()` snapshot and call `enable_plugin` /
`disable_plugin` only on a mismatch. -/
def callsForEntry (enabledPlugins : List String) (e : EnablementEntry) :
    List EnablementCall :=
  let actual := decide (e.name ∈ enabledPlugins)
  if e.enabled ≠ actual then
    if e.enabled then [EnablementCall.enable e.name]
    else [EnablementCall.disable e.name]
  else []

/-- The `while True` loop of `_plugin_enablement`, started at index `i`:
stop as soon as `params i` is absent, otherwise process the entry and
continue at `i + 1`.  `params` models `ctx.params.get("enablementI", None)`
as a function of the index `I`; `fuel` is an upper bound on the number of
iterations (the Python loop terminates because only finitely many keys are
present). -/
def pluginEnablementLoop (params : Nat → Option EnablementEntry)
    (enabledPlugins : List String) : Nat → Nat → List EnablementCall
  | 0, _ => []
  | fuel + 1, i =>
    match params i with
    | none => []
    | some obj =>
        callsForEntry enabledPlugins obj ++
          pluginEnablementLoop params enabledPlugins fuel (i + 1)

/-- `_plugin_enablement(ctx)`: the loop starts with `i = 1`
(`i` is incremented before the first lookup). -/
def plugin_enablement (params : Nat → Option EnablementEntry)
    (enabledPlugins : List String) (fuel : Nat) : List EnablementCall :=
  pluginEnablementLoop params enabledPlugins fuel 1

/-- Effect of a single `fop.enable_plugin` / `fop.disable_plugin` call on the
registry's enabled-state, modelled as a boolean predicate on plugin names. -/
def applyCall (st : String → Bool) : EnablementCall → String → Bool
  | .enable n => fun m => if m = n then true else st m
  | .disable n => fun m => if m = n then false else st m

/-- Effect of a sequence of enablement calls, applied in order. -/
def applyCalls (st : String → Bool) (calls : List EnablementCall) :
    String → Bool :=
  calls.foldl applyCall st

/-- The parameter map submitted by the ENABLEMENT form for a given list of
rows: `enablementI` is the `I`-th row for `1 ≤ I ≤ length`, and absent
beyond. -/
def entryParams (entries : List EnablementEntry) :
    Nat → Option EnablementEntry :=
  fun i => if i = 0 then none else entries[i - 1]?

/-- Unrolling of the enablement loop: when the first absent index is `g`,
the loop started at `s ≤ g` processes exactly the entries at indices
`s, s+1, ..., g-1`, in order. -/
theorem pluginEnablementLoop_eq (params : Nat → Option EnablementEntry)
    (enabledPlugins : List String) :
    ∀ (fuel s g : Nat), s ≤ g → g - s < fuel →
      (∀ i, s ≤ i → i < g → (params i).isSome) → params g = none →
      pluginEnablementLoop params enabledPlugins fuel s =
        ((List.range' s (g - s)).map
          (fun i => (params i).elim [] (callsForEntry enabledPlugins))).flatten
  | 0, _, _, _, hfuel, _, _ => absurd hfuel (by omega)
  | fuel + 1, s, g, hsg, hfuel, hsome, hnone => by
    rcases Nat.lt_or_ge s g with hlt | hge
    · obtain ⟨e, he⟩ := Option.isSome_iff_exists.mp (hsome s le_rfl hlt)
      have hrec := pluginEnablementLoop_eq params enabledPlugins fuel (s + 1) g
        (by omega) (by omega) (fun i h1 h2 => hsome i (by omega) h2) hnone
      have hrange : List.range' s (g - s) = s :: List.range' (s + 1) (g - (s + 1)) := by
        have hgs : g - s = (g - (s + 1)) + 1 := by omega
        rw [hgs, List.range'_succ]
      rw [hrange]
      simp [pluginEnablementLoop, he, hrec]
    · have hsg' : s = g := le_antisymm hsg hge
      subst hsg'
      simp [pluginEnablementLoop, hnone, Nat.sub_self]

theorem map_range_getElem (l : List EnablementEntry)
    (f : EnablementEntry → List EnablementCall) :
    (List.range l.length).map (fun k => (l[k]?.elim [] f)) = l.map f := by
  induction l with
  | nil => simp
  | cons a t ih =>
      rw [List.length_cons, List.range_succ_eq_map]
      simp only [List.map_cons, List.map_map]
      congr 1
      · simp
      · rw [← ih]
        apply List.map_congr_left
        intro k _
        simp

/-- With the parameters produced by a full row list (no gaps), the loop
processes exactly the rows, in order. -/
theorem plugin_enablement_entryParams (entries : List EnablementEntry)
    (enabledPlugins : List String) (fuel : Nat)
    (hfuel : entries.length + 1 ≤ fuel) :
    plugin_enablement (entryParams entries) enabledPlugins fuel =
      (entries.map (callsForEntry enabledPlugins)).flatten := by
  have h := pluginEnablementLoop_eq (entryParams entries) enabledPlugins fuel 1
    (entries.length + 1) (by omega) (by omega)
    (by
      intro i h1 h2
      simp only [entryParams]
      rw [if_neg (by omega), List.getElem?_eq_getElem (by omega)]
      rfl)
    (by
      simp only [entryParams]
      rw [if_neg (by omega)]
      exact List.getElem?_eq_none (by omega))
  rw [plugin_enablement, h]
  congr 1
  have hr : List.range' 1 (entries.length + 1 - 1) =
      (List.range entries.length).map (fun k => k + 1) := by
    rw [Nat.add_sub_cancel, List.range'_eq_map_range]
    apply List.map_congr_left
    intro k _
    omega
  rw [hr, List.map_map, ← map_range_getElem entries (callsForEntry enabledPlugins)]
  apply List.map_congr_left
  intro k _
  simp [entryParams]

theorem mem_callsForEntry_enable (enabledPlugins : List String)
    (e : EnablementEntry) (n : String) :
    EnablementCall.enable n ∈ callsForEntry enabledPlugins e ↔
      (e.name = n ∧ e.enabled = true ∧ e.name ∉ enabledPlugins) := by
  unfold callsForEntry
  by_cases hm : e.name ∈ enabledPlugins <;> cases he : e.enabled <;>
    simp [hm, he, eq_comm]

theorem mem_callsForEntry_disable (enabledPlugins : List String)
    (e : EnablementEntry) (n : String) :
    EnablementCall.disable n ∈ callsForEntry enabledPlugins e ↔
      (e.name = n ∧ e.enabled = false ∧ e.name ∈ enabledPlugins) := by
  unfold callsForEntry
  by_cases hm : e.name ∈ enabledPlugins <;> cases he : e.enabled <;>
    simp [hm, he, eq_comm]

theorem callName_mem_callsForEntry (enabledPlugins : List String)
    (e : EnablementEntry) (c : EnablementCall)
    (hc : c ∈ callsForEntry enabledPlugins e) : callName c = e.name := by
  unfold callsForEntry at hc
  by_cases hm : e.name ∈ enabledPlugins <;> cases he : e.enabled <;>
    simp [hm, he] at hc <;> simp [hc, callName]

theorem applyCalls_append (st : String → Bool) (l1 l2 : List EnablementCall) :
    applyCalls st (l1 ++ l2) = applyCalls (applyCalls st l1) l2 := by
  simp [applyCalls, List.foldl_append]

theorem applyCalls_not_touched (calls : List EnablementCall) (n : String) :
    ∀ (st : String → Bool), (∀ c ∈ calls, callName c ≠ n) →
      applyCalls st calls n = st n := by
  induction calls with
  | nil => intro st _; rfl
  | cons c rest ih =>
      intro st h
      have hc : callName c ≠ n := h c (by simp)
      have hst : applyCall st c n = st n := by
        cases c with
        | enable m =>
            simp only [callName] at hc
            simp only [applyCall]
            exact if_neg (fun hn => hc hn.symm)
        | disable m =>
            simp only [callName] at hc
            simp only [applyCall]
            exact if_neg (fun hn => hc hn.symm)
      calc applyCalls st (c :: rest) n
          = applyCalls (applyCall st c) rest n := rfl
        _ = applyCall st c n := ih (applyCall st c) (fun d hd => h d (by simp [hd]))
        _ = st n := hst

theorem applyCalls_callsForEntry (enabledPlugins : List String)
    (e : EnablementEntry) (st : String → Bool)
    (hst : st e.name = decide (e.name ∈ enabledPlugins)) :
    applyCalls st (callsForEntry enabledPlugins e) e.name = e.enabled := by
  unfold callsForEntry
  by_cases hm : e.name ∈ enabledPlugins <;> cases he : e.enabled <;>
    simp [hm, he, applyCalls, applyCall] at hst ⊢ <;> exact hst

/-- **C1** — `manage_plugins` ENABLEMENT execute: given submitted entries
`enablement1 .. enablementN` with pairwise distinct plugin names (the form
built by `resolve_input` lists each installed plugin once),
`enable_plugin n` is called exactly for entries whose flag is `true` while
`n` is not currently enabled, `disable_plugin n` exactly for entries whose
flag is `false` while `n` is currently enabled, no call is made for an entry
whose flag matches the current status, and after applying all calls every
entry's plugin has enabled status equal to its submitted flag. -/
theorem c1_enablement_execute (entries : List EnablementEntry)
    (enabledPlugins : List String) (fuel : Nat)
    (hnodup : (entries.map EnablementEntry.name).Nodup)
    (hfuel : entries.length + 1 ≤ fuel) :
    (∀ n, EnablementCall.enable n ∈
        plugin_enablement (entryParams entries) enabledPlugins fuel ↔
        ∃ e ∈ entries, e.name = n ∧ e.enabled = true ∧ n ∉ enabledPlugins) ∧
    (∀ n, EnablementCall.disable n ∈
        plugin_enablement (entryParams entries) enabledPlugins fuel ↔
        ∃ e ∈ entries, e.name = n ∧ e.enabled = false ∧ n ∈ enabledPlugins) ∧
    (∀ e ∈ entries,
      applyCalls (fun n => decide (n ∈ enabledPlugins))
        (plugin_enablement (entryParams entries) enabledPlugins fuel) e.name
        = e.enabled) := by
  rw [plugin_enablement_entryParams entries enabledPlugins fuel hfuel]
  refine ⟨?_, ?_, ?_⟩
  · intro n
    simp only [List.mem_flatten, List.mem_map]
    constructor
    · rintro ⟨cs, ⟨e, he, rfl⟩, hm⟩
      obtain ⟨h1, h2, h3⟩ := (mem_callsForEntry_enable enabledPlugins e n).mp hm
      exact ⟨e, he, h1, h2, h1 ▸ h3⟩
    · rintro ⟨e, he, h1, h2, h3⟩
      exact ⟨callsForEntry enabledPlugins e, ⟨e, he, rfl⟩,
        (mem_callsForEntry_enable enabledPlugins e n).mpr ⟨h1, h2, h1 ▸ h3⟩⟩
  · intro n
    simp only [List.mem_flatten, List.mem_map]
    constructor
    · rintro ⟨cs, ⟨e, he, rfl⟩, hm⟩
      obtain ⟨h1, h2, h3⟩ := (mem_callsForEntry_disable enabledPlugins e n).mp hm
      exact ⟨e, he, h1, h2, h1 ▸ h3⟩
    · rintro ⟨e, he, h1, h2, h3⟩
      exact ⟨callsForEntry enabledPlugins e, ⟨e, he, rfl⟩,
        (mem_callsForEntry_disable enabledPlugins e n).mpr ⟨h1, h2, h1 ▸ h3⟩⟩
  · intro e he
    obtain ⟨l1, l2, rfl⟩ := List.append_of_mem he
    have hnames : e.name ∉ l1.map EnablementEntry.name ∧
        e.name ∉ l2.map EnablementEntry.name := by
      rw [List.map_append, List.map_cons] at hnodup
      have := List.nodup_middle.mp hnodup
      rw [List.nodup_cons, List.mem_append] at this
      exact ⟨fun h => this.1 (Or.inl h), fun h => this.1 (Or.inr h)⟩
    have huntouched : ∀ (l : List EnablementEntry),
        e.name ∉ l.map EnablementEntry.name →
        ∀ c ∈ (l.map (callsForEntry enabledPlugins)).flatten, callName c ≠ e.name := by
      intro l hl c hc
      obtain ⟨cs, ⟨e', he', rfl⟩, hcm⟩ := by
        simpa only [List.mem_flatten, List.mem_map] using hc
      rw [callName_mem_callsForEntry enabledPlugins e' c hcm]
      intro hEq
      exact hl (List.mem_map.mpr ⟨e', he', hEq⟩)
    rw [List.map_append, List.map_cons, List.flatten_append, List.flatten_cons,
      applyCalls_append, applyCalls_append]
    rw [applyCalls_not_touched _ _ _ (huntouched l2 hnames.2)]
    apply applyCalls_callsForEntry
    rw [applyCalls_not_touched _ _ _ (huntouched l1 hnames.1)]

/-- Witness for C1 at a concrete input: two rows with distinct names;
`p1` is toggled on (it was disabled) and `p2` is toggled off (it was
enabled); afterwards `p2` is disabled as submitted. -/
theorem c1_enablement_execute_witness :
    (EnablementCall.enable "p1" ∈
      plugin_enablement (entryParams [⟨"p1", true⟩, ⟨"p2", false⟩]) ["p2"] 3) ∧
    (applyCalls (fun n => decide (n ∈ ["p2"]))
      (plugin_enablement (entryParams [⟨"p1", true⟩, ⟨"p2", false⟩]) ["p2"] 3)
      "p2" = false) := by
  have h := c1_enablement_execute [⟨"p1", true⟩, ⟨"p2", false⟩] ["p2"] 3
    (by decide) (by decide)
  refine ⟨(h.1 "p1").mpr ⟨⟨"p1", true⟩, by simp, rfl, rfl, by simp⟩, ?_⟩
  exact h.2.2 ⟨"p2", false⟩ (by simp)

/-- **C10** — the enablement apply step scans `enablement1, enablement2, ...`
strictly sequentially and stops at the first absent index `g`: exactly the
entries at indices `1 .. g-1` are processed, in order, and any entries at
indices beyond the gap are ignored (two parameter maps agreeing up to the gap
produce the same calls, hence the same final enablement state). -/
theorem c10_enablement_scan (params params2 : Nat → Option EnablementEntry)
    (enabledPlugins : List String) (g fuel : Nat)
    (hg : 1 ≤ g)
    (hpresent : ∀ i < g, 1 ≤ i → (params i).isSome)
    (hgap : params g = none)
    (hfuel : g ≤ fuel) :
    plugin_enablement params enabledPlugins fuel =
      ((List.range' 1 (g - 1)).map
        (fun i => (params i).elim [] (callsForEntry enabledPlugins))).flatten ∧
    ((∀ i ≤ g, params2 i = params i) →
      plugin_enablement params2 enabledPlugins fuel =
        plugin_enablement params enabledPlugins fuel) := by
  have h1 := pluginEnablementLoop_eq params enabledPlugins fuel 1 g hg
    (by omega) (fun i hi1 hi2 => hpresent i hi2 hi1) hgap
  constructor
  · exact h1
  · intro hagree
    have h2 := pluginEnablementLoop_eq params2 enabledPlugins fuel 1 g hg
      (by omega)
      (fun i hi1 hi2 => by rw [hagree i (by omega)]; exact hpresent i hi2 hi1)
      (by rw [hagree g le_rfl]; exact hgap)
    unfold plugin_enablement
    rw [h1, h2]
    congr 1
    apply List.map_congr_left
    intro i hi
    have hig : i ≤ g := by
      have := List.mem_range'_1.mp hi
      omega
    rw [hagree i hig]

/-- Witness for C10: a parameter map with `enablement1` present and
`enablement2` absent; an extra entry at index 3 (beyond the gap) is ignored. -/
theorem c10_enablement_scan_witness :
    plugin_enablement
        (fun i => if i = 3 then some ⟨"z", true⟩
                  else if i = 1 then some ⟨"a", true⟩ else none)
        ["x"] 5 =
      plugin_enablement
        (fun i => if i = 1 then some ⟨"a", true⟩ else none) ["x"] 5 := by
  have h := c10_enablement_scan
    (fun i => if i = 1 then some ⟨"a", true⟩ else none)
    (fun i => if i = 3 then some ⟨"z", true⟩
              else if i = 1 then some ⟨"a", true⟩ else none)
    ["x"] 2 5 (by omega) (by decide) (by decide) (by omega)
  exact h.2 (by decide)

/-! ## Requirement checking (`_check_fiftyone_requirement`, lines 513-522,
and `_check_package_requirement`, lines 525-543)

The external `packaging` collaborator (requirement parsing, the version
order and `SpecifierSet.contains`) and `importlib.metadata.version` are
modelled explicitly: a parsed requirement is a name plus a conjunctive list
of operator/version clauses, versions are lists of numeric release
components, and parse failure is `none`. -/

/-- Comparison operator of one specifier clause of the external `packaging`
specifier matcher. -/
inductive SpecOp where
  | geOp | gtOp | leOp | ltOp | eqOp | neOp
deriving DecidableEq, Repr

/-- Release-version comparison of the external `packaging` collaborator:
numeric components compared left to right, the shorter version padded with
zeros. -/
def versionCmp : List Nat → List Nat → Ordering
  | [], [] => .eq
  | [], b :: bs => if b = 0 then versionCmp [] bs else .lt
  | a :: as, [] => if a = 0 then versionCmp as [] else .gt
  | a :: as, b :: bs =>
      if a < b then .lt else if b < a then .gt else versionCmp as bs
termination_by a b => a.length + b.length

/-- Whether a version satisfies one specifier clause. -/
def clauseContains (v : List Nat) : SpecOp × List Nat → Bool
  | (.geOp, s) => versionCmp v s ≠ .lt
  | (.gtOp, s) => versionCmp v s = .gt
  | (.leOp, s) => versionCmp v s ≠ .gt
  | (.ltOp, s) => versionCmp v s = .lt
  | (.eqOp, s) => versionCmp v s = .eq
  | (.neOp, s) => versionCmp v s ≠ .eq

/-- `req.specifier.contains(version)`: all clauses must hold. -/
def specifierContains (spec : List (SpecOp × List Nat)) (v : List Nat) : Bool :=
  spec.all (clauseContains v)

/-- A parsed `packaging.requirements.Requirement`: the distribution name and
the specifier set. -/
structure PyRequirement where
  name : String
  specifier : List (SpecOp × List Nat)
deriving DecidableEq, Repr

/-- `_check_fiftyone_requirement(req_str)`: `parsed` is the outcome of
`Requirement(req_str)` (`none` models a raised parse exception, swallowed by
the bare `except`, leaving `satisfied = False`); `foVersion` is
`foc.VERSION`, always present. Returns `(req_str, version, satisfied)` with
`satisfied = not req.specifier or req.specifier.contains(version)`. -/
def check_fiftyone_requirement (req_str : String)
    (parsed : Option PyRequirement) (foVersion : List Nat) :
    String × Option (List Nat) × Bool :=
  match parsed with
  | some req =>
      (req_str, some foVersion,
        req.specifier.isEmpty || specifierContains req.specifier foVersion)
  | none => (req_str, some foVersion, false)

/-- `_check_package_requirement(req_str)`: when `Requirement(req_str)`
raises, `req` stays unbound, so `metadata.version(req.name)` raises (caught,
`version = None`) and the `satisfied` expression raises (caught,
`satisfied = False`).  Otherwise `installedVersion` models
`metadata.version` (`none` when the package is not installed) and
`satisfied = (version is not None) and (not req.specifier or
req.specifier.contains(version))`. -/
def check_package_requirement (req_str : String)
    (parsed : Option PyRequirement)
    (installedVersion : String → Option (List Nat)) :
    String × Option (List Nat) × Bool :=
  match parsed with
  | none => (req_str, none, false)
  | some req =>
      let version := installedVersion req.name
      let satisfied :=
        match version with
        | none => false
        | some v =>
            req.specifier.isEmpty || specifierContains req.specifier v
      (req_str, version, satisfied)

/-- **C2** — requirement checking reports a requirement satisfied iff the
specifier is empty or the installed version is contained in it: for the
fiftyone checker (whose version is always present) the satisfied flag equals
exactly this disjunction; for the package checker the same holds whenever an
installed version exists, a missing installed version (`None`) always yields
`satisfied = false`, and an installed version `0.9` checked against
`>=1.0,<2.0` yields `satisfied = false`. -/
theorem c2_requirement_satisfied (req_str : String) (req : PyRequirement)
    (installedVersion : String → Option (List Nat)) (foVersion : List Nat) :
    ((check_fiftyone_requirement req_str (some req) foVersion).2.2 =
      (req.specifier.isEmpty || specifierContains req.specifier foVersion)) ∧
    (∀ v, installedVersion req.name = some v →
      (check_package_requirement req_str (some req) installedVersion).2.2 =
        (req.specifier.isEmpty || specifierContains req.specifier v)) ∧
    (installedVersion req.name = none →
      (check_package_requirement req_str (some req) installedVersion).2.2 =
        false) ∧
    (installedVersion req.name = some [0, 9] →
      req.specifier = [(SpecOp.geOp, [1, 0]), (SpecOp.ltOp, [2, 0])] →
      (check_package_requirement req_str (some req) installedVersion).2.2 =
        false) := by
  refine ⟨rfl, ?_, ?_, ?_⟩
  · intro v hv
    simp [check_package_requirement, hv]
  · intro hv
    simp [check_package_requirement, hv]
  · intro hv hspec
    simp [check_package_requirement, hv, hspec, specifierContains,
      clauseContains, versionCmp]

/-- Witness for C2: the package `torch` installed at version `0.9` fails the
requirement `torch>=1.0,<2.0`, and an uninstalled package is unsatisfied. -/
theorem c2_requirement_satisfied_witness :
    ((check_package_requirement "torch>=1.0,<2.0"
        (some ⟨"torch", [(SpecOp.geOp, [1, 0]), (SpecOp.ltOp, [2, 0])]⟩)
        (fun _ => some [0, 9])).2.2 = false) ∧
    ((check_package_requirement "missing"
        (some ⟨"missing", []⟩) (fun _ => none)).2.2 = false) := by
  constructor
  · exact (c2_requirement_satisfied "torch>=1.0,<2.0"
      ⟨"torch", [(SpecOp.geOp, [1, 0]), (SpecOp.ltOp, [2, 0])]⟩
      (fun _ => some [0, 9]) []).2.2.2 rfl rfl
  · exact (c2_requirement_satisfied "missing" ⟨"missing", []⟩
      (fun _ => none) []).2.2.1 rfl

/-- **C5** — for every requirement string whose parse fails, both checkers
return without raising and report the requirement unsatisfied:
`_check_fiftyone_requirement` returns `(req_str, current version, False)`
and `_check_package_requirement` returns `(req_str, None, False)`. -/
theorem c5_parse_failure_unsatisfied (req_str : String) (foVersion : List Nat)
    (installedVersion : String → Option (List Nat)) :
    check_fiftyone_requirement req_str none foVersion =
      (req_str, some foVersion, false) ∧
    check_package_requirement req_str none installedVersion =
      (req_str, none, false) :=
  ⟨rfl, rfl⟩

/-! ## Association-list (Python `dict`) lemmas -/

theorem alookup_cons {α : Type} (p : String × α) (t : List (String × α))
    (k : String) :
    alookup (p :: t) k = if p.1 = k then some p.2 else alookup t k := by
  by_cases h : p.1 = k <;> simp [alookup, List.find?_cons, h]

theorem alookup_dictSet {α : Type} (m : List (String × α)) (k k2 : String)
    (v : α) :
    alookup (dictSet m k v) k2 = if k2 = k then some v else alookup m k2 := by
  induction m with
  | nil =>
      by_cases h : k2 = k
      · simp [dictSet, alookup, List.find?, h]
      · simp [dictSet, alookup, List.find?, h,
          show ¬(k = k2) from fun hh => h hh.symm]
  | cons kv rest ih =>
      by_cases hk : kv.1 = k
      · simp only [dictSet, if_pos hk]
        by_cases h2 : k2 = k
        · rw [alookup_cons, if_pos h2.symm, if_pos h2]
        · rw [alookup_cons, if_neg (fun hh : k = k2 => h2 hh.symm), if_neg h2,
            alookup_cons, if_neg (fun hh : kv.1 = k2 => h2 (hk.symm.trans hh).symm)]
      · simp only [dictSet, if_neg hk]
        rw [alookup_cons]
        by_cases h2 : kv.1 = k2
        · rw [if_pos h2, if_neg (fun hh : k2 = k => hk (h2.trans hh)),
            alookup_cons, if_pos h2]
        · rw [if_neg h2, ih, alookup_cons, if_neg h2]

theorem map_fst_dictSet {α : Type} (m : List (String × α)) (k : String)
    (v : α) (hk : k ∈ m.map Prod.fst) :
    (dictSet m k v).map Prod.fst = m.map Prod.fst := by
  induction m with
  | nil => simp at hk
  | cons kv rest ih =>
      by_cases h : kv.1 = k
      · simp [dictSet, h]
      · have hk' : k ∈ rest.map Prod.fst := by
          rcases List.mem_cons.mp hk with h1 | h1
          · exact absurd h1.symm h
          · exact h1
        simp [dictSet, h, ih hk']

theorem mem_keys_nodup_eq {α : Type} (m : List (String × α))
    (h : (m.map Prod.fst).Nodup) (kv kv' : String × α)
    (h1 : kv ∈ m) (h2 : kv' ∈ m) (hk : kv.1 = kv'.1) : kv = kv' := by
  induction m with
  | nil => simp at h1
  | cons p rest ih =>
      rw [List.map_cons, List.nodup_cons] at h
      rcases List.mem_cons.mp h1 with e1 | e1 <;>
        rcases List.mem_cons.mp h2 with e2 | e2
      · exact e1.trans e2.symm
      · exact absurd (List.mem_map.mpr ⟨kv', e2, (hk.symm.trans (e1 ▸ rfl))⟩) h.1
      · exact absurd (List.mem_map.mpr ⟨kv, e1, (hk.trans (e2 ▸ rfl))⟩) h.1
      · exact ih h.2 e1 e2

theorem alookup_mem_nodup {α : Type} (m : List (String × α))
    (h : (m.map Prod.fst).Nodup) (kv : String × α) (hm : kv ∈ m) :
    alookup m kv.1 = some kv.2 := by
  induction m with
  | nil => simp at hm
  | cons p rest ih =>
      rw [List.map_cons, List.nodup_cons] at h
      rcases List.mem_cons.mp hm with e | e
      · rw [alookup_cons, if_pos (e ▸ rfl)]
        rw [e]
      · rw [alookup_cons, if_neg, ih h.2 e]
        intro hpk
        exact h.1 (List.mem_map.mpr ⟨kv, e, hpk.symm⟩)

/-! ## Plugin-info hydration (`_hydrate_plugin_info`, lines 231-251) -/

/-- A plugin listing `dict` from the discovery/zoo collaborators.  Presence
of the `"version"` key is modelled by `version.isSome`. -/
structure PluginDict where
  name : String := ""
  description : String := ""
  url : String := ""
  version : Option String := none
deriving DecidableEq, Repr

/-- The `tasks` dict built by `_hydrate_plugin_info`: for every entry of the
plugins map that lacks a `"version"` key, its name mapped to its `"url"`. -/
def hydrateTasks (m : List (String × PluginDict)) : List (String × String) :=
  m.filterMap
    (fun kv => if kv.2.version.isNone then some (kv.1, kv.2.url) else none)

/-- `_hydrate_plugin_info(plugins_map)`.  `fetch` models `get_plugin_info`;
`order` is the completion order of `pool.imap_unordered`, an arbitrary
permutation of the task list.  Returns the final map together with the
worker count of the pool that was created (`none` when the function returned
before creating a pool).  The control flow mirrors the source, including the
absence of an early return in the `num_tasks == 1` branch: the single task
is fetched serially and then fetched again through a pool of
`min(num_tasks, 4) = 1` workers. -/
def hydrate_plugin_info (fetch : String → PluginDict)
    (m : List (String × PluginDict)) (order : List (String × String)) :
    List (String × PluginDict) × Option Nat :=
  let tasks := hydrateTasks m
  let num_tasks := tasks.length
  if num_tasks = 0 then (m, none)
  else
    let m1 :=
      match tasks with
      | (nm, url) :: _ => if num_tasks = 1 then dictSet m nm (fetch url) else m
      | [] => m
    let processes := min num_tasks 4
    (order.foldl (fun acc t => dictSet acc t.1 (fetch t.2)) m1, some processes)

theorem hydrateTasks_eq_nil_iff (m : List (String × PluginDict)) :
    hydrateTasks m = [] ↔ ∀ kv ∈ m, kv.2.version.isSome := by
  rw [hydrateTasks, List.filterMap_eq_nil_iff]
  constructor
  · intro h kv hm
    have h2 := h kv hm
    by_cases hv : kv.2.version.isNone
    · rw [if_pos hv] at h2; simp at h2
    · simp only [Option.isNone_iff_eq_none] at hv
      exact Option.isSome_iff_ne_none.mpr hv
  · intro h kv hm
    have hne : ¬kv.2.version.isNone = true := by
      simp only [Option.isNone_iff_eq_none]
      exact Option.isSome_iff_ne_none.mp (h kv hm)
    rw [if_neg hne]

theorem alookup_foldl_dictSet_not_mem (fetch : String → PluginDict) :
    ∀ (order : List (String × String)) (acc : List (String × PluginDict))
      (k : String), k ∉ order.map Prod.fst →
      alookup (order.foldl (fun m t => dictSet m t.1 (fetch t.2)) acc) k =
        alookup acc k := by
  intro order
  induction order with
  | nil => intro acc k _; rfl
  | cons t rest ih =>
      intro acc k hk
      rw [List.map_cons] at hk
      have h1 : k ∉ rest.map Prod.fst := fun h => hk (List.mem_cons.mpr (Or.inr h))
      have h2 : k ≠ t.1 := fun h => hk (List.mem_cons.mpr (Or.inl h))
      rw [List.foldl_cons, ih _ k h1, alookup_dictSet, if_neg h2]

theorem alookup_foldl_dictSet_mem (fetch : String → PluginDict) :
    ∀ (order : List (String × String)) (acc : List (String × PluginDict))
      (k url : String), (order.map Prod.fst).Nodup → (k, url) ∈ order →
      alookup (order.foldl (fun m t => dictSet m t.1 (fetch t.2)) acc) k =
        some (fetch url) := by
  intro order
  induction order with
  | nil => intro _ _ _ _ h; simp at h
  | cons t rest ih =>
      intro acc k url hnodup hmem
      rw [List.map_cons, List.nodup_cons] at hnodup
      rcases List.mem_cons.mp hmem with he | he
      · cases he
        rw [List.foldl_cons,
          alookup_foldl_dictSet_not_mem fetch rest _ k hnodup.1,
          alookup_dictSet, if_pos rfl]
      · rw [List.foldl_cons]
        exact ih _ k url hnodup.2 he

theorem map_fst_foldl_dictSet (fetch : String → PluginDict) :
    ∀ (order : List (String × String)) (acc : List (String × PluginDict)),
      (∀ k ∈ order.map Prod.fst, k ∈ acc.map Prod.fst) →
      (order.foldl (fun m t => dictSet m t.1 (fetch t.2)) acc).map Prod.fst =
        acc.map Prod.fst := by
  intro order
  induction order with
  | nil => intro acc _; rfl
  | cons t rest ih =>
      intro acc hsub
      have ht : t.1 ∈ acc.map Prod.fst := hsub t.1 (by simp)
      have hd := map_fst_dictSet acc t.1 (fetch t.2) ht
      rw [List.foldl_cons, ih _ (fun k hk => by
        rw [hd]; exact hsub k (List.mem_cons.mpr (Or.inr hk))), hd]

theorem mem_hydrateTasks (m : List (String × PluginDict))
    (kv : String × PluginDict) (hm : kv ∈ m) (hv : kv.2.version = none) :
    (kv.1, kv.2.url) ∈ hydrateTasks m := by
  rw [hydrateTasks, List.mem_filterMap]
  exact ⟨kv, hm, by rw [if_pos (by simp [hv])]⟩

theorem hydrateTasks_map_fst_sublist (m : List (String × PluginDict)) :
    ((hydrateTasks m).map Prod.fst).Sublist (m.map Prod.fst) := by
  induction m with
  | nil => simp [hydrateTasks]
  | cons kv rest ih =>
      rw [hydrateTasks, List.filterMap_cons]
      by_cases hv : kv.2.version.isNone
      · rw [if_pos hv]
        exact List.Sublist.cons₂ kv.1 ih
      · rw [if_neg hv]
        exact List.Sublist.cons kv.1 ih

theorem mem_keys_hydrateTasks (m : List (String × PluginDict)) (k : String)
    (hk : k ∈ (hydrateTasks m).map Prod.fst) :
    ∃ kv ∈ m, kv.1 = k ∧ kv.2.version = none := by
  obtain ⟨t, ht, rfl⟩ := List.mem_map.mp hk
  obtain ⟨kv, hkv, hf⟩ := List.mem_filterMap.mp ht
  by_cases hv : kv.2.version.isNone
  · rw [if_pos hv] at hf
    cases hf
    exact ⟨kv, hkv, rfl, Option.isNone_iff_eq_none.mp hv⟩
  · rw [if_neg hv] at hf
    cases hf

/-- **C7** — the worker pool of `_hydrate_plugin_info` is created with
exactly `min(number of version-less plugins, 4)` workers, hence never more
than 4; when every plugin already has a version key the function returns
without creating a pool; and the pool is used whenever at least one plugin
lacks a version key, including the single-task case. -/
theorem c7_hydrate_pool_size (fetch : String → PluginDict)
    (m : List (String × PluginDict)) (order : List (String × String)) :
    ((∀ kv ∈ m, kv.2.version.isSome) →
      (hydrate_plugin_info fetch m order).2 = none) ∧
    (hydrateTasks m ≠ [] →
      (hydrate_plugin_info fetch m order).2 =
          some (min (hydrateTasks m).length 4) ∧
        min (hydrateTasks m).length 4 ≤ 4) ∧
    ((∃ kv ∈ m, kv.2.version = none) →
      (hydrate_plugin_info fetch m order).2 ≠ none) := by
  refine ⟨?_, ?_, ?_⟩
  · intro h
    have hnil : hydrateTasks m = [] := (hydrateTasks_eq_nil_iff m).mpr h
    simp [hydrate_plugin_info, hnil]
  · intro h
    have hne : (hydrateTasks m).length ≠ 0 := by
      simpa [List.length_eq_zero] using h
    constructor
    · simp only [hydrate_plugin_info, if_neg hne]
    · exact Nat.min_le_right _ _
  · rintro ⟨kv, hm, hv⟩ hnone
    have hne : (hydrateTasks m).length ≠ 0 := by
      simp only [ne_eq, List.length_eq_zero]
      intro hnil
      have := (hydrateTasks_eq_nil_iff m).mp hnil kv hm
      rw [hv] at this
      simp at this
    simp only [hydrate_plugin_info, if_neg hne] at hnone
    cases hnone

/-- Witness for C7: a map with one version-less plugin creates a 1-worker
pool; a map whose single plugin has a version creates no pool. -/
theorem c7_hydrate_pool_size_witness :
    ((hydrate_plugin_info (fun _ => {})
        [("p", { url := "u" })] [("p", "u")]).2 = some 1) ∧
    ((hydrate_plugin_info (fun _ => {})
        [("q", { version := some "1.0" })] []).2 = none) := by
  constructor
  · exact ((c7_hydrate_pool_size (fun _ => {})
      [("p", { url := "u" })] [("p", "u")]).2.1 (by decide)).1
  · exact (c7_hydrate_pool_size (fun _ => {})
      [("q", { version := some "1.0" })] []).1 (by decide)

/-- **C8** — after `_hydrate_plugin_info` returns, every entry that already
carried a version key is unchanged, every entry that lacked one has been
replaced, under its own name key, by the metadata fetched from that entry's
url, and the key list is unchanged — for every completion order of the
parallel fetches (any permutation of the task list). -/
theorem c8_hydrate_result (fetch : String → PluginDict)
    (m : List (String × PluginDict)) (order : List (String × String))
    (hnodup : (m.map Prod.fst).Nodup)
    (hperm : order.Perm (hydrateTasks m)) :
    ((hydrate_plugin_info fetch m order).1.map Prod.fst = m.map Prod.fst) ∧
    (∀ kv ∈ m, alookup (hydrate_plugin_info fetch m order).1 kv.1 =
      some (if kv.2.version.isSome then kv.2 else fetch kv.2.url)) := by
  have htasksub : ∀ k ∈ (hydrateTasks m).map Prod.fst, k ∈ m.map Prod.fst :=
    fun k hk => (hydrateTasks_map_fst_sublist m).mem hk
  have htasknodup : ((hydrateTasks m).map Prod.fst).Nodup :=
    hnodup.sublist (hydrateTasks_map_fst_sublist m)
  have hordkeys : (order.map Prod.fst).Perm ((hydrateTasks m).map Prod.fst) :=
    hperm.map Prod.fst
  have hordnodup : (order.map Prod.fst).Nodup :=
    hordkeys.nodup_iff.mpr htasknodup
  by_cases hnil : (hydrateTasks m).length = 0
  · rw [List.length_eq_zero] at hnil
    have hall := (hydrateTasks_eq_nil_iff m).mp hnil
    simp only [hydrate_plugin_info, hnil, List.length_nil, if_pos rfl]
    refine ⟨rfl, ?_⟩
    intro kv hm
    rw [if_pos (hall kv hm)]
    exact alookup_mem_nodup m hnodup kv hm
  · -- the pool branch; `m1` is the map after the (possible) serial fetch
    have hm1 : ∀ m1 : List (String × PluginDict),
        (m1 = m ∨ ∃ t ∈ hydrateTasks m, m1 = dictSet m t.1 (fetch t.2)) →
        (m1.map Prod.fst = m.map Prod.fst ∧
          ∀ kv ∈ m, kv.1 ∉ (hydrateTasks m).map Prod.fst →
            alookup m1 kv.1 = alookup m kv.1) := by
      rintro m1 (rfl | ⟨t, ht, rfl⟩)
      · exact ⟨rfl, fun _ _ _ => rfl⟩
      · have htk : t.1 ∈ m.map Prod.fst :=
          htasksub t.1 (List.mem_map.mpr ⟨t, ht, rfl⟩)
        refine ⟨map_fst_dictSet m t.1 (fetch t.2) htk, ?_⟩
        intro kv hm hkv
        rw [alookup_dictSet, if_neg]
        intro hEq
        exact hkv (hEq ▸ List.mem_map.mpr ⟨t, ht, rfl⟩)
    -- description of the result for an arbitrary valid `m1`
    have hmain : ∀ m1 : List (String × PluginDict),
        (m1 = m ∨ ∃ t ∈ hydrateTasks m, m1 = dictSet m t.1 (fetch t.2)) →
        ((order.foldl (fun acc t => dictSet acc t.1 (fetch t.2)) m1).map
            Prod.fst = m.map Prod.fst ∧
          ∀ kv ∈ m,
            alookup (order.foldl (fun acc t => dictSet acc t.1 (fetch t.2)) m1)
              kv.1 =
              some (if kv.2.version.isSome then kv.2 else fetch kv.2.url)) := by
      intro m1 hcase
      obtain ⟨hfst, hlook⟩ := hm1 m1 hcase
      constructor
      · rw [map_fst_foldl_dictSet fetch order m1 (fun k hk => by
          rw [hfst]
          exact htasksub k (hordkeys.mem_iff.mp hk))]
        exact hfst
      · intro kv hm
        by_cases hv : kv.2.version.isSome
        · have hkv : kv.1 ∉ (hydrateTasks m).map Prod.fst := by
            intro hk
            obtain ⟨kv', hkv', hk', hv'⟩ := mem_keys_hydrateTasks m kv.1 hk
            have heq : kv' = kv := mem_keys_nodup_eq m hnodup kv' kv hkv' hm hk'
            rw [heq] at hv'
            rw [hv'] at hv
            simp at hv
          have hko : kv.1 ∉ order.map Prod.fst :=
            fun hk => hkv (hordkeys.mem_iff.mp hk)
          rw [alookup_foldl_dictSet_not_mem fetch order m1 kv.1 hko,
            hlook kv hm hkv, if_pos hv, alookup_mem_nodup m hnodup kv hm]
        · have hv' : kv.2.version = none := by
            simpa [Option.isSome_iff_ne_none] using hv
          have hmem : (kv.1, kv.2.url) ∈ order :=
            hperm.mem_iff.mpr (mem_hydrateTasks m kv hm hv')
          rw [alookup_foldl_dictSet_mem fetch order m1 kv.1 kv.2.url
            hordnodup hmem, if_neg hv]
    -- dispatch on the actual `m1` of the source
    rcases hcaseT : hydrateTasks m with _ | ⟨⟨nm, url⟩, ts⟩
    · exact absurd (by rw [hcaseT]; rfl) hnil
    · have hres : (hydrate_plugin_info fetch m order).1 =
          order.foldl (fun acc t => dictSet acc t.1 (fetch t.2))
            (if ts.length + 1 = 1 then dictSet m nm (fetch url) else m) := by
        simp only [hydrate_plugin_info, hcaseT, List.length_cons]
        rw [if_neg (by omega)]
      rw [hres]
      by_cases h1 : ts.length + 1 = 1
      · rw [if_pos h1]
        exact hmain _ (Or.inr ⟨(nm, url), by rw [hcaseT]; simp, rfl⟩)
      · rw [if_neg h1]
        exact hmain _ (Or.inl rfl)

/-- Witness for C8 at a concrete input: a two-entry map where `a` lacks a
version and `b` has one; after hydration `a` is replaced by the fetched
metadata for its url and `b` is untouched. -/
theorem c8_hydrate_result_witness :
    (alookup (hydrate_plugin_info
        (fun u => { name := "a", url := u, version := some "2.0" })
        [("a", { url := "ua" }), ("b", { version := some "1.0" })]
        [("a", "ua")]).1 "a" =
      some { name := "a", url := "ua", version := some "2.0" }) ∧
    (alookup (hydrate_plugin_info
        (fun u => { name := "a", url := u, version := some "2.0" })
        [("a", { url := "ua" }), ("b", { version := some "1.0" })]
        [("a", "ua")]).1 "b" = some { version := some "1.0" }) := by
  have h := c8_hydrate_result
    (fun u => { name := "a", url := u, version := some "2.0" })
    [("a", { url := "ua" }), ("b", { version := some "1.0" })]
    [("a", "ua")] (by decide) (by decide)
  constructor
  · have := h.2 ("a", { url := "ua" }) (by simp)
    simpa using this
  · have := h.2 ("b", { version := some "1.0" }) (by simp)
    simpa using this

/-! ## `install_plugin` execute (`_install_plugin`, lines 260-275) -/

/-- The parameters read by the `install_plugin` operator; an absent key is
`none`. -/
structure InstallCtx where
  tab : Option String := none
  gh_repo : Option String := none
  plugin_names : Option (List String) := none
  voxel51_plugin : Option String := none
  community_plugin : Option String := none
deriving DecidableEq, Repr

/-- Outcome of `_install_plugin(ctx)`: either the
`fop.download_plugin(gh_repo, plugin_names=..., overwrite=True)` side effect
(its arguments recorded; the repository location is `Option` because the zoo
lookup can yield Python `None`), a `KeyError` from a `ctx.params[...]`
subscript, or the `UnboundLocalError` raised at the download call when no
branch assigned `gh_repo` / `plugin_names`. -/
inductive InstallResult where
  | downloaded (gh_repo : Option String) (plugin_names : Option (List String))
  | keyError (key : String)
  | unboundLocalError
deriving DecidableEq, Repr

/-- `_install_plugin(ctx)`.  `zooLocation` models
`_get_zoo_plugin_location`: the url of the first zoo plugin with the given
name, `none` when there is no such plugin. -/
def install_plugin (ctx : InstallCtx) (zooLocation : String → Option String) :
    InstallResult :=
  let tab := ctx.tab
  if tab = some "GITHUB" then
    match ctx.gh_repo with
    | none => .keyError "gh_repo"
    | some r => .downloaded (some r) ctx.plugin_names
  else if tab = some "VOXEL51" then
    match ctx.voxel51_plugin with
    | none => .keyError "voxel51_plugin"
    | some n => .downloaded (zooLocation n) (some [n])
  else if tab = some "COMMUNITY" then
    match ctx.community_plugin with
    | none => .keyError "community_plugin"
    | some n => .downloaded (zooLocation n) (some [n])
  else .unboundLocalError

/-- **C9** — `_install_plugin` assumes `tab` is one of GITHUB, VOXEL51 or
COMMUNITY: under that precondition (with the tab's plugin parameter present
and, for zoo tabs, the zoo lookup succeeding) the download call receives a
defined repository location; for any parameter mapping whose tab is absent
or any other value, execute fails with an unbound-local error — no download
or install side effect occurs. -/
theorem c9_install_tab_dispatch (ctx : InstallCtx)
    (zooLocation : String → Option String) :
    ((ctx.tab ≠ some "GITHUB" ∧ ctx.tab ≠ some "VOXEL51" ∧
        ctx.tab ≠ some "COMMUNITY") →
      install_plugin ctx zooLocation = .unboundLocalError) ∧
    (∀ r, ctx.tab = some "GITHUB" → ctx.gh_repo = some r →
      install_plugin ctx zooLocation = .downloaded (some r) ctx.plugin_names) ∧
    (∀ n u, ctx.tab = some "VOXEL51" → ctx.voxel51_plugin = some n →
      zooLocation n = some u →
      install_plugin ctx zooLocation = .downloaded (some u) (some [n])) ∧
    (∀ n u, ctx.tab = some "COMMUNITY" → ctx.community_plugin = some n →
      zooLocation n = some u →
      install_plugin ctx zooLocation = .downloaded (some u) (some [n])) := by
  refine ⟨?_, ?_, ?_, ?_⟩
  · rintro ⟨h1, h2, h3⟩
    simp [install_plugin, h1, h2, h3]
  · intro r htab hrepo
    simp [install_plugin, htab, hrepo]
  · intro n u htab hname hzoo
    simp [install_plugin, htab, hname, hzoo]
  · intro n u htab hname hzoo
    simp [install_plugin, htab, hname, hzoo]

/-- Witness for C9: an absent tab yields the unbound-local failure with no
download; a GITHUB submission downloads from the submitted repo. -/
theorem c9_install_tab_dispatch_witness :
    (install_plugin {} (fun _ => none) = .unboundLocalError) ∧
    (install_plugin { tab := some "GITHUB", gh_repo := some "u/r" }
        (fun _ => none) = .downloaded (some "u/r") none) := by
  constructor
  · exact (c9_install_tab_dispatch {} (fun _ => none)).1
      (by refine ⟨?_, ?_, ?_⟩ <;> simp)
  · exact (c9_install_tab_dispatch
      { tab := some "GITHUB", gh_repo := some "u/r" } (fun _ => none)).2.1
      "u/r" rfl rfl

/-! ## `install_plugin` form builder (`_install_plugin_inputs`, lines 53-209)

The declarative form is modelled as the ordered list of elements the builder
adds to `inputs`; marking a property invalid is recorded on the element. -/

/-- One element added to the `inputs` object (`inputs.enum`, `inputs.str`,
`inputs.list`, `inputs.view`, ...): its kind, parameter name and the fields
relevant here. -/
structure Elem where
  kind : String
  name : String
  label : String := ""
  description : String := ""
  defaultVal : String := ""
  invalid : Bool := false
deriving DecidableEq, Repr

/-- An installed plugin as returned by `fop.list_plugins(enabled="all")`. -/
structure InstalledPlugin where
  name : String
  version : String
deriving DecidableEq, Repr

/-- The GitHub instructions markdown (the `instructions` literal of the
source, before `.strip()`). -/
def ghRepoInstructionsText : String :=
  "\nProvide a location to download the plugin(s) from, which can be:\n\n-   A GitHub repo URL like `https://github.com/<user>/<repo>`\n-   A GitHub ref like\n    `https://github.com/<user>/<repo>/tree/<branch>` or\n    `https://github.com/<user>/<repo>/commit/<commit>`\n-   A GitHub ref string like `<user>/<repo>[/<ref>]`\n    "

/-- `_get_updates(plugin_names, plugins)` (lines 212-228): the sorted names
that are both requested and currently installed, each with its current and
target version (versions read out of the hydrated plugins map). -/
def get_updates (installed : List InstalledPlugin)
    (fetch : String → PluginDict) (order : List (String × String))
    (plugin_names : List String) (plugins : List PluginDict) :
    List (String × String × String) :=
  let curr_plugins_map := installed.foldl (fun m p => dictSet m p.name p) []
  let curr_names := curr_plugins_map.map Prod.fst
  let update_names :=
    ((plugin_names.filter (fun n => n ∈ curr_names)).dedup).mergeSort
      (fun a b => a ≤ b)
  if update_names.isEmpty then []
  else
    let plugins_map := plugins.foldl
      (fun m p => if p.name ∈ update_names then dictSet m p.name p else m) []
    let plugins_map := (hydrate_plugin_info fetch plugins_map order).1
    update_names.map (fun n =>
      (n, ((alookup curr_plugins_map n).map (fun p => p.version)).getD "",
        ((alookup plugins_map n).bind (fun p => p.version)).getD ""))

/-- The trailing update-notice elements of the form (lines 185-209): absent
when there is nothing to update. -/
def updatesElems (installed : List InstalledPlugin)
    (fetch : String → PluginDict) (order : List (String × String))
    (tab : String) (plugin_names : List String)
    (plugins : List PluginDict) : List Elem :=
  let updates := get_updates installed fetch order plugin_names plugins
  if updates.isEmpty then []
  else
    let prop_name := tab ++ "_" ++ String.intercalate "_" plugin_names
      ++ "_update_str"
    let update_str := "You are about to update the following plugins:\n" ++
      String.intercalate "\n" (updates.map (fun u =>
        "- `" ++ u.1 ++ "`: `v" ++ u.2.1 ++ "` -> `v" ++ u.2.2 ++ "`"))
    [{ kind := "str", name := prop_name, defaultVal := update_str },
     { kind := "notice", name := "update_notice",
       label := "Are you sure you want to update these plugins?" }]

/-- `_install_plugin_inputs(ctx, inputs)`.  `find_plugins` and
`get_zoo_plugins` model the discovery collaborators; a raised exception is
`Except.error tb` with `tb` the `traceback.format_exc()` string.
`installed`, `fetch` and `order` feed the update computation. -/
def install_plugin_inputs (ctx : InstallCtx)
    (find_plugins : String → Except String (List PluginDict))
    (get_zoo_plugins : Except String (List PluginDict × List PluginDict))
    (installed : List InstalledPlugin) (fetch : String → PluginDict)
    (order : List (String × String)) : List Elem :=
  let tabElem : Elem := { kind := "enum", name := "tab" }
  let tab := ctx.tab.getD "GITHUB"
  if tab = "GITHUB" then
    let base := [tabElem,
      { kind := "str", name := "gh_repo_instructions",
        defaultVal := pyStrip ghRepoInstructionsText },
      { kind := "str", name := "gh_repo" }]
    match ctx.gh_repo with
    | none => base
    | some gh_repo =>
      if gh_repo = "" then base
      else
        match find_plugins gh_repo with
        | .error tb =>
            base ++ [{ kind := "error",
                       name := "error",
                       label := "Failed to find plugins at " ++ gh_repo,
                       description := tb, invalid := true }]
        | .ok plugins =>
            if plugins.isEmpty then
              base ++ [{ kind := "warning",
                         name := "warning",
                         label := "No plugins found at " ++ gh_repo,
                         invalid := true }]
            else
              let base := if plugins.length > 1 then
                  base ++ [{ kind := "list",
                             name := "plugin_names",
                             label := "Plugins",
                             description := "An optional list of plugins to install. By default, all plugins are installed" }]
                else base
              let plugin_names := match ctx.plugin_names with
                | none => plugins.map (fun p => p.name)
                | some l => if l.isEmpty then plugins.map (fun p => p.name)
                    else l
              base ++ updatesElems installed fetch order tab plugin_names
                plugins
  else
    match get_zoo_plugins with
    | .error tb =>
        [tabElem, { kind := "error",
                    name := "error",
                    label := "Failed to retrieve zoo plugins",
                    description := tb,
                    invalid := true }]
    | .ok zoo =>
        let param := if tab = "VOXEL51" then "voxel51_plugin"
          else "community_plugin"
        let plugins := if tab = "VOXEL51" then zoo.1 else zoo.2
        let descr := if tab = "VOXEL51" then
            "Choose a Voxel51-authored plugin from the zoo to install"
          else "Choose a community-authored plugin from the zoo to install"
        let base := [tabElem,
          { kind := "enum", name := param, label := "Plugin",
            description := descr }]
        let plugin_name := if tab = "VOXEL51" then ctx.voxel51_plugin
          else ctx.community_plugin
        match plugin_name with
        | none => base
        | some pn =>
            if pn = "" then base
            else base ++ updatesElems installed fetch order tab [pn] plugins

/-- **C6** — in the `install_plugin` form builder, a raised exception from
plugin discovery (`find_plugins`, GitHub tab) or from zoo-plugin listing
(`get_zoo_plugins`, Voxel51/Community tabs) is caught and surfaced as an
inline Error view whose description is the formatted traceback string, the
property is marked invalid, and the builder returns immediately with no
further inputs added; no exception escapes from these two failure points
(the builder still returns a form). -/
theorem c6_install_inputs_error_paths (ctx : InstallCtx)
    (find_plugins : String → Except String (List PluginDict))
    (get_zoo_plugins : Except String (List PluginDict × List PluginDict))
    (installed : List InstalledPlugin) (fetch : String → PluginDict)
    (order : List (String × String)) :
    (∀ r tb, ctx.tab.getD "GITHUB" = "GITHUB" → ctx.gh_repo = some r →
      r ≠ "" → find_plugins r = .error tb →
      install_plugin_inputs ctx find_plugins get_zoo_plugins installed fetch
          order =
        [{ kind := "enum", name := "tab" },
         { kind := "str", name := "gh_repo_instructions",
           defaultVal := pyStrip ghRepoInstructionsText },
         { kind := "str", name := "gh_repo" },
         { kind := "error", name := "error",
           label := "Failed to find plugins at " ++ r,
           description := tb, invalid := true }]) ∧
    (∀ tb, (ctx.tab = some "VOXEL51" ∨ ctx.tab = some "COMMUNITY") →
      get_zoo_plugins = .error tb →
      install_plugin_inputs ctx find_plugins get_zoo_plugins installed fetch
          order =
        [{ kind := "enum", name := "tab" },
         { kind := "error", name := "error",
           label := "Failed to retrieve zoo plugins",
           description := tb, invalid := true }]) := by
  constructor
  · intro r tb htab hrepo hne hfind
    simp [install_plugin_inputs, htab, hrepo, hfind, hne]
  · intro tb htab hzoo
    have htab' : ¬ctx.tab.getD "GITHUB" = "GITHUB" := by
      rcases htab with h | h <;> simp [h]
    simp [install_plugin_inputs, htab', hzoo]

/-- Witness for C6: a failing `find_plugins` on the GitHub tab and a failing
`get_zoo_plugins` on the Voxel51 tab each produce exactly the inline Error
element carrying the traceback string. -/
theorem c6_install_inputs_error_paths_witness :
    (install_plugin_inputs { gh_repo := some "u/r" }
        (fun _ => .error "tb1") (.ok ([], [])) [] (fun _ => {}) [] =
      [{ kind := "enum", name := "tab" },
       { kind := "str", name := "gh_repo_instructions",
         defaultVal := pyStrip ghRepoInstructionsText },
       { kind := "str", name := "gh_repo" },
       { kind := "error", name := "error",
         label := "Failed to find plugins at u/r",
         description := "tb1", invalid := true }]) ∧
    (install_plugin_inputs { tab := some "VOXEL51" }
        (fun _ => .ok []) (.error "tb2") [] (fun _ => {}) [] =
      [{ kind := "enum", name := "tab" },
       { kind := "error", name := "error",
         label := "Failed to retrieve zoo plugins",
         description := "tb2", invalid := true }]) := by
  constructor
  · exact (c6_install_inputs_error_paths { gh_repo := some "u/r" }
      (fun _ => .error "tb1") (.ok ([], [])) [] (fun _ => {}) []).1
      "u/r" "tb1" rfl rfl (by decide) rfl
  · exact (c6_install_inputs_error_paths { tab := some "VOXEL51" }
      (fun _ => .ok []) (.error "tb2") [] (fun _ => {}) []).2
      "tb2" (Or.inl rfl) rfl

/-! ## Operator skeleton builder (`build_operator_skeleton`, lines 1033-1839)

The parameters read by the wizard; an absent key is `none`, and every
`ctx.params.get(key, default)` becomes `Option.getD`. -/

/-- The nested `config_bool_props` object. -/
structure ConfigBoolProps where
  operator_dynamic : Option Bool := none
  execute_as_generator : Option Bool := none
  unlisted : Option Bool := none
  on_startup : Option Bool := none
deriving DecidableEq, Repr

/-- The nested `config_icon_props` object. -/
structure ConfigIconProps where
  config_icon : Option Bool := none
  config_light_icon : Option Bool := none
  config_dark_icon : Option Bool := none
deriving DecidableEq, Repr

/-- The parameter map of the `build_operator_skeleton` operator.
`directory_absolute_path` models
`ctx.params.get("directory", \x7b\x7d).get("absolute_path", ...)`. -/
structure SkelCtx where
  operator_name : Option String := none
  operator_label : Option String := none
  operator_description : Option String := none
  config_bool_props : Option ConfigBoolProps := none
  config_icon_props : Option ConfigIconProps := none
  operator_input_has_input : Option Bool := none
  operator_output_has_output : Option Bool := none
  delegated_execution_choices : Option String := none
  operator_execution_has_trigger : Option Bool := none
  operator_execution_trigger : Option String := none
  operator_execution_trigger_panel : Option String := none
  operator_execution_trigger_layout : Option String := none
  operator_placement_has_placement : Option Bool := none
  operator_placement : Option String := none
  placement_label : Option String := none
  placement_prompt : Option Bool := none
  placement_has_icon : Option Bool := none
  placement_icon : Option String := none
  directory_absolute_path : Option String := none
  plugin_subdirectory : Option String := none
  plugin_name : Option String := none
  plugin_description : Option String := none
deriving DecidableEq, Repr

/-- `_create_operator_config_code(ctx)` (lines 1144-1202). -/
def create_operator_config_code (ctx : SkelCtx) : String :=
  let operator_name := ctx.operator_name.getD "my_operator"
  let operator_label := ctx.operator_label.getD "My Operator"
  let operator_description :=
    ctx.operator_description.getD "My Operator Description"
  let cbp := ctx.config_bool_props.getD {}
  let dynamic := cbp.operator_dynamic.getD false
  let execute_as_generator := cbp.execute_as_generator.getD false
  let unlisted := cbp.unlisted.getD false
  let on_startup := cbp.on_startup.getD false
  let cip := ctx.config_icon_props.getD {}
  let config_icon := cip.config_icon.getD true
  let config_light_icon := cip.config_light_icon.getD false
  let config_dark_icon := cip.config_dark_icon.getD false
  let code := "\n    @property\n    def config(self):\n        _config = foo.OperatorConfig(\n            name=\"" ++ operator_name ++ "\",\n            label=\"" ++ operator_label ++ "\",\n            description=\"" ++ operator_description ++ "\",\n        "
  let code := if dynamic then
      code ++ "\n            dynamic=" ++ pyBool dynamic ++ "," else code
  let code := if execute_as_generator then
      code ++ "\n            execute_as_generator=" ++
        pyBool execute_as_generator ++ ","
    else code
  let code := if unlisted then
      code ++ "\n            unlisted=" ++ pyBool unlisted ++ "," else code
  let code := if on_startup then
      code ++ "\n            on_startup=" ++ pyBool on_startup ++ "," else code
  let code := code ++ "\n        )"
  let icon_lines : List String :=
    (if config_icon then ["_config.icon = \"/path/to/icon.svg\""] else []) ++
    (if config_light_icon then
      ["_config.light_icon = \"/path/to/light_icon.svg\""] else []) ++
    (if config_dark_icon then
      ["_config.dark_icon = \"/path/to/dark_icon.svg\""] else [])
  let code := if icon_lines.isEmpty then code
    else code ++ "\n        " ++ String.intercalate "\n        " icon_lines
  let code := code ++ "\n        return _config\n    "
  pyReplace (dedent code) "\n\n" "\n"

/-- `_operator_skeleton_input_code(ctx)` (lines 1230-1266). -/
def operator_skeleton_input_code (ctx : SkelCtx) : String :=
  let has_input := ctx.operator_input_has_input.getD false
  let delegation := ctx.delegated_execution_choices.getD "False"
  let deleg_user_choice := delegation == "User Choice"
  let code :=
    if has_input && !deleg_user_choice then
      "\n        def resolve_input(self, ctx):\n            inputs = types.Object()\n\n            ### Add your inputs here ###\n\n            return types.Property(inputs)\n        "
    else if has_input && deleg_user_choice then
      "\n        def resolve_input(self, ctx):\n            inputs = types.Object()\n\n            ### Add your inputs here ###\n            _execution_mode(ctx, inputs)\n            return types.Property(inputs)\n        "
    else if deleg_user_choice then
      "\n        def resolve_input(self, ctx):\n            inputs = types.Object()\n\n            _execution_mode(ctx, inputs)\n            return types.Property(inputs)\n        "
    else
      "\n        def resolve_input(self, ctx):\n            pass\n        "
  pyReplace (dedent code) "\n\n" "\n"

/-- `_operator_skeleton_execution_code(ctx)` (lines 1357-1425); an unknown
trigger type raises `ValueError("Invalid trigger type")`. -/
def operator_skeleton_execution_code (ctx : SkelCtx) : Except String String :=
  let has_trigger := ctx.operator_execution_has_trigger.getD false
  if has_trigger then
    let trigger_type := ctx.operator_execution_trigger.getD "Reload Samples"
    if trigger_type == "Reload Samples" then
      .ok (pyReplace (dedent "\n            def execute(self, ctx):\n                ### Your logic here ###\n\n                ctx.trigger(\"reload_samples\")\n                return \x7b\x7d\n            ") "\n\n" "\n")
    else if trigger_type == "Reload Dataset" then
      .ok (pyReplace (dedent "\n            def execute(self, ctx):\n                ### Your logic here ###\n\n                ctx.trigger(\"reload_dataset\")\n                return \x7b\x7d\n            ") "\n\n" "\n")
    else if trigger_type == "Set View" then
      .ok (pyReplace (dedent "\n            def execute(self, ctx):\n                ### Your logic here ###\n            \n                ### Create your view here ###\n                view = ctx.dataset.take(10)\n\n                ctx.trigger(\n                    \"set_view\",\n                    params=dict(view=serialize_view(view)),\n                )\n                return \x7b\x7d\n            ") "\n\n" "\n")
    else if trigger_type == "Open A Panel" then
      let panel_type := ctx.operator_execution_trigger_panel.getD "Embeddings"
      let layout_type :=
        ctx.operator_execution_trigger_layout.getD "Horizontal"
      .ok (pyReplace (dedent ("\n            def execute(self, ctx):\n                ### Your logic here ###\n\n                ctx.trigger(\n                    \"open_panel\",\n                    params=dict(\n                        name=\"" ++ panel_type ++ "\", \n                        isActive=True, \n                        layout=\"" ++ layout_type ++ "\"\n                        ),\n                )\n                return \x7b\x7d\n            ")) "\n\n" "\n")
    else .error "Invalid trigger type"
  else
    .ok (pyReplace (dedent "\n        def execute(self, ctx):\n            ### Your logic here ###\n        \n            return \x7b\x7d\n        ") "\n\n" "\n")

/-- `_operator_skeleton_delegation_code(ctx)` (lines 1493-1513); an unknown
choice raises `ValueError("Invalid delegation choice")`. -/
def operator_skeleton_delegation_code (ctx : SkelCtx) : Except String String :=
  let delegated_execution := ctx.delegated_execution_choices.getD "False"
  let codeE : Except String String :=
    if delegated_execution == "False" then .ok ""
    else if delegated_execution == "True" then
      .ok "\n        def resolve_delegation(self, ctx):\n            True\n        "
    else if delegated_execution == "User Choice" then
      .ok "\n        def resolve_delegation(self, ctx):\n            return ctx.params.get(\"delegate\", False)\n        "
    else .error "Invalid delegation choice"
  codeE.map (fun code => pyReplace (dedent code) "\n\n" "\n")

/-- `_operator_skeleton_output_code(ctx)` (lines 1516-1530). -/
def operator_skeleton_output_code (ctx : SkelCtx) : String :=
  let has_output := ctx.operator_output_has_output.getD false
  let code :=
    if has_output then
      "\n        def resolve_output(self, ctx):\n            outputs = types.Object()\n\n            ### Add your outputs here ###\n\n            return types.Property(outputs)\n        "
    else ""
  pyReplace (dedent code) "\n\n" "\n"

/-- `_operator_skeleton_placement_code(ctx)` (lines 1596-1623). -/
def operator_skeleton_placement_code (ctx : SkelCtx) : String :=
  let has_placement := ctx.operator_placement_has_placement.getD false
  let code :=
    if has_placement then
      let placement := ctx.operator_placement.getD "SAMPLES-GRID-ACTIONS"
      let placement_label := ctx.placement_label.getD "My Placement Label"
      let placement_prompt := ctx.placement_prompt.getD false
      let placement_has_icon := ctx.placement_has_icon.getD true
      let placement_icon0 := ctx.placement_icon.getD "/path/to/icon.svg"
      let placement_icon :=
        if placement_has_icon then "\"" ++ placement_icon0 ++ "\"" else "None"
      "\n        def resolve_placement(self, ctx):\n            return types.Placement(\n                types.Places." ++ placement ++ ",\n                label = \"" ++ placement_label ++ "\"\n                icon = " ++ placement_icon ++ "\n                prompt = " ++ pyBool placement_prompt ++ "\n            )\n        "
    else ""
  pyReplace (dedent code) "\n\n" "\n"

/-- The `IMPORTS_CODE` literal (lines 1453-1457). -/
def IMPORTS_CODE : String :=
  "\nimport fiftyone as fo\nimport fiftyone.operators as foo\nfrom fiftyone.operators import types\n"

/-- The `EXECUTION_MODE_CODE` literal (lines 1459-1490). -/
def EXECUTION_MODE_CODE : String :=
  "\ndef _execution_mode(ctx, inputs):\n    delegate = ctx.params.get(\"delegate\", False)\n\n    if delegate:\n        description = \"Uncheck this box to execute the operation immediately\"\n    else:\n        description = \"Check this box to delegate execution of this task\"\n\n    inputs.bool(\n        \"delegate\",\n        default=False,\n        required=True,\n        label=\"Delegate execution?\",\n        description=description,\n        view=types.CheckboxView(),\n    )\n\n    if delegate:\n        inputs.view(\n            \"notice\",\n            types.Notice(\n                label=(\n                    \"You\x27ve chosen delegated execution. Note that you must \"\n                    \"have a delegated operation service running in order for \"\n                    \"this task to be processed. See \"\n                    \"https://docs.voxel51.com/plugins/index.html#operators \"\n                    \"for more information\"\n                )\n            ),\n        )\n"

/-- The `SERIALIZE_VIEW_CODE` literal (lines 1646-1649). -/
def SERIALIZE_VIEW_CODE : String :=
  "\ndef serialize_view(view):\n    return json.loads(json_util.dumps(view._serialize()))\n"

/-- `_create_operator_class_name(ctx)` (lines 1640-1643). -/
def create_operator_class_name (ctx : SkelCtx) : String :=
  let operator_name := ctx.operator_name.getD "my_operator"
  pyReplace (pyTitle (pyReplace operator_name "_" " ")) " " ""

/-- `_create_class_header(ctx)` (lines 1652-1654). -/
def create_class_header (ctx : SkelCtx) : String :=
  "class " ++ create_operator_class_name ctx ++ "(foo.Operator):" ++ "\n"

/-- `_create_footer(ctx)` (lines 1657-1663). -/
def create_footer (ctx : SkelCtx) : String :=
  dedent ("\n    def register(plugin):\n        plugin.register(" ++
    create_operator_class_name ctx ++ ")\n    ")

/-- `_create_operator_skeleton_code(ctx)` (lines 1666-1697): the full
`__init__.py` text; an invalid trigger/delegation choice propagates the
`ValueError` out (raised while building the body, before any completion). -/
def create_operator_skeleton_code (ctx : SkelCtx) : Except String String := do
  let executionCode ← operator_skeleton_execution_code ctx
  let delegationCode ← operator_skeleton_delegation_code ctx
  let code := create_operator_config_code ctx ++ "\n\n" ++
    operator_skeleton_input_code ctx ++ "\n\n" ++ executionCode ++ "\n\n" ++
    delegationCode ++ "\n\n" ++ operator_skeleton_output_code ctx ++
    "\n\n" ++ operator_skeleton_placement_code ctx
  let code := replace_extra_newlines (indent_code code)
  let class_header := create_class_header ctx
  let set_view := ctx.operator_execution_trigger == some "Set View"
  let header := (if set_view then "import json\nfrom bson import json_util\n"
    else "")
  let header := header ++ IMPORTS_CODE
  let header := header ++
    (if ctx.delegated_execution_choices.getD "False" == "User Choice" then
      EXECUTION_MODE_CODE else "")
  let header := header ++
    (if set_view then "\n\n" ++ SERIALIZE_VIEW_CODE else "")
  let header := header ++ "\n\n" ++ class_header
  pure (replace_extra_newlines (header ++ code ++ create_footer ctx))

/-- `_create_fiftyone_yml_code(ctx)` (lines 1770-1783). -/
def create_fiftyone_yml_code (ctx : SkelCtx) : String :=
  let plugin_name := ctx.plugin_name.getD "@github_username/plugin_name"
  let plugin_description :=
    ctx.plugin_description.getD "My Plugin Description"
  let operator_name := ctx.operator_name.getD "my_operator"
  let yml_code := "\n    name: \"" ++ plugin_name ++
    "\"\n    version: \"0.0.1\"\n    description: \"" ++ plugin_description ++
    "\"\n    operators:\n      - " ++ operator_name ++ "\n    "
  pyReplace (dedent yml_code) "\n\n" "\n"

/-- A completed file write (path and full content) of
`BuildOperatorSkeleton.execute`. -/
structure FSWrite where
  path : String
  content : String
deriving DecidableEq, Repr

/-- `BuildOperatorSkeleton.execute(ctx)` (lines 1822-1839): pick the target
directory (the chosen directory's `absolute_path`, else the
`FIFTYONE_PLUGINS_DIR` environment variable, passed as `pluginsDirEnv`),
join the chosen subdirectory, then write `__init__.py` and `fiftyone.yml`
in `"w"` (truncate/overwrite) mode.  A `ValueError` raised by the code
generator propagates and no write completes. -/
def build_operator_skeleton_execute (ctx : SkelCtx) (pluginsDirEnv : String) :
    Except String (List FSWrite) := do
  let default_plugin_directory := pluginsDirEnv
  let plugin_directory :=
    ctx.directory_absolute_path.getD default_plugin_directory
  let subdir := ctx.plugin_subdirectory.getD "my_operator"
  let full_path := pyJoin plugin_directory subdir
  let initCode ← create_operator_skeleton_code ctx
  pure [⟨pyJoin full_path "__init__.py", initCode⟩,
        ⟨pyJoin full_path "fiftyone.yml", create_fiftyone_yml_code ctx⟩]

/-- `_operator_skeleton_view_code_flow(ctx, inputs)` (lines 1700-1715): the
Preview Code step adds a header and a read-only code view whose default
value is the generated `__init__.py` text. -/
def operator_skeleton_view_code_flow (ctx : SkelCtx) :
    Except String (List Elem) := do
  let code ← create_operator_skeleton_code ctx
  pure [{ kind := "str", name := "operator_skeleton_view_code_header",
          label := "Preview Operator Skeleton" },
        { kind := "str", name := "operator_skeleton_view_code",
          label := "Python Code",
          description := "Preview of your `__init__.py` file",
          defaultVal := code }]

/-- Effect of one `open(path, "w"); write(content)` on a filesystem modelled
as a partial map from path to content: the previous content is discarded. -/
def applyWrite (fs : String → Option String) (w : FSWrite) :
    String → Option String :=
  fun p => if p = w.path then some w.content else fs p

/-- Effect of a sequence of writes, applied in order. -/
def applyWrites (fs : String → Option String) (ws : List FSWrite) :
    String → Option String :=
  ws.foldl applyWrite fs

theorem pyJoin_init_ne_yml (full : String) :
    pyJoin full "__init__.py" ≠ pyJoin full "fiftyone.yml" := by
  intro h
  have hlen := congrArg String.length h
  unfold pyJoin at hlen
  by_cases hc : (full == "" || pyEndsWith full "/") = true
  · simp only [show pyStartsWith "__init__.py" "/" = false from rfl,
      show pyStartsWith "fiftyone.yml" "/" = false from rfl,
      Bool.false_eq_true, if_false, hc, if_true, String.length_append,
      show ("__init__.py" : String).length = 11 from rfl,
      show ("fiftyone.yml" : String).length = 12 from rfl] at hlen
    omega
  · simp only [show pyStartsWith "__init__.py" "/" = false from rfl,
      show pyStartsWith "fiftyone.yml" "/" = false from rfl,
      Bool.false_eq_true, if_false, hc, String.length_append,
      show ("__init__.py" : String).length = 11 from rfl,
      show ("fiftyone.yml" : String).length = 12 from rfl,
      show ("/" : String).length = 1 from rfl] at hlen
    omega

/-- Validity of the submitted execution-trigger choice: when the
has-trigger switch is on, the trigger is one of the four recognized
choices. -/
def ValidTrigger (ctx : SkelCtx) : Prop :=
  ctx.operator_execution_has_trigger.getD false = true →
    ctx.operator_execution_trigger.getD "Reload Samples" ∈
      (["Reload Samples", "Reload Dataset", "Set View", "Open A Panel"] :
        List String)

/-- Validity of the submitted delegation choice. -/
def ValidDelegation (ctx : SkelCtx) : Prop :=
  ctx.delegated_execution_choices.getD "False" ∈
    (["False", "True", "User Choice"] : List String)

theorem execution_code_ok (ctx : SkelCtx) (h : ValidTrigger ctx) :
    ∃ e, operator_skeleton_execution_code ctx = .ok e := by
  cases hres : operator_skeleton_execution_code ctx with
  | ok e => exact ⟨e, rfl⟩
  | error msg =>
      exfalso
      by_cases ht : ctx.operator_execution_has_trigger.getD false = true
      · have hmem := h ht
        simp only [List.mem_cons, List.not_mem_nil, or_false] at hmem
        rcases hmem with h1 | h1 | h1 | h1 <;>
          simp [operator_skeleton_execution_code, ht, h1] at hres
      · simp [operator_skeleton_execution_code, ht] at hres

theorem delegation_code_ok (ctx : SkelCtx) (h : ValidDelegation ctx) :
    ∃ d, operator_skeleton_delegation_code ctx = .ok d := by
  cases hres : operator_skeleton_delegation_code ctx with
  | ok d => exact ⟨d, rfl⟩
  | error msg =>
      exfalso
      have hmem := h
      simp only [ValidDelegation, List.mem_cons, List.not_mem_nil, or_false]
        at hmem
      rcases hmem with h1 | h1 | h1 <;>
        simp [operator_skeleton_delegation_code, h1, Except.map] at hres

theorem create_skeleton_code_ok (ctx : SkelCtx) (hT : ValidTrigger ctx)
    (hD : ValidDelegation ctx) :
    ∃ c, create_operator_skeleton_code ctx = .ok c := by
  obtain ⟨e, he⟩ := execution_code_ok ctx hT
  obtain ⟨d, hd⟩ := delegation_code_ok ctx hD
  cases hres : create_operator_skeleton_code ctx with
  | ok c => exact ⟨c, rfl⟩
  | error msg =>
      exfalso
      rw [create_operator_skeleton_code, he, hd] at hres
      simp [bind, Except.bind, pure, Except.pure] at hres

/-- **C3 (counterexample)** — the claim "for every parameter mapping,
executing `build_operator_skeleton` writes exactly two text files" fails as
stated: the parameter mapping with `operator_execution_has_trigger = True`
and `operator_execution_trigger = "bogus"` makes `execute` raise
`ValueError("Invalid trigger type")` while generating the `__init__.py`
content, so no file write completes. -/
theorem c3_skeleton_execute_counterexample :
    build_operator_skeleton_execute
        { operator_execution_has_trigger := some true,
          operator_execution_trigger := some "bogus" } "/plugins" =
      Except.error "Invalid trigger type" := rfl

/-- **C3 (amended)** — for every parameter mapping whose trigger choice
(when the has-trigger switch is on) is one of the four recognized triggers
and whose delegation choice is one of False/True/"User Choice", execute
writes exactly two text files — `__init__.py` (the operator source stub)
and `fiftyone.yml` (the plugin manifest) — both under the join of the
user-chosen directory (or the `FIFTYONE_PLUGINS_DIR` fallback) with the
chosen subdirectory; the two paths are distinct, each write unconditionally
overwrites any existing content, and no other file is written. -/
theorem c3_skeleton_execute_amended (ctx : SkelCtx) (env : String)
    (hT : ValidTrigger ctx) (hD : ValidDelegation ctx) :
    ∃ initCode,
      create_operator_skeleton_code ctx = .ok initCode ∧
      build_operator_skeleton_execute ctx env = .ok
        [⟨pyJoin (pyJoin (ctx.directory_absolute_path.getD env)
            (ctx.plugin_subdirectory.getD "my_operator")) "__init__.py",
          initCode⟩,
         ⟨pyJoin (pyJoin (ctx.directory_absolute_path.getD env)
            (ctx.plugin_subdirectory.getD "my_operator")) "fiftyone.yml",
          create_fiftyone_yml_code ctx⟩] ∧
      pyJoin (pyJoin (ctx.directory_absolute_path.getD env)
          (ctx.plugin_subdirectory.getD "my_operator")) "__init__.py" ≠
        pyJoin (pyJoin (ctx.directory_absolute_path.getD env)
          (ctx.plugin_subdirectory.getD "my_operator")) "fiftyone.yml" ∧
      ∀ (fs : String → Option String) (p : String),
        applyWrites fs
          [⟨pyJoin (pyJoin (ctx.directory_absolute_path.getD env)
              (ctx.plugin_subdirectory.getD "my_operator")) "__init__.py",
            initCode⟩,
           ⟨pyJoin (pyJoin (ctx.directory_absolute_path.getD env)
              (ctx.plugin_subdirectory.getD "my_operator")) "fiftyone.yml",
            create_fiftyone_yml_code ctx⟩] p =
          if p = pyJoin (pyJoin (ctx.directory_absolute_path.getD env)
              (ctx.plugin_subdirectory.getD "my_operator")) "fiftyone.yml"
          then some (create_fiftyone_yml_code ctx)
          else if p = pyJoin (pyJoin (ctx.directory_absolute_path.getD env)
              (ctx.plugin_subdirectory.getD "my_operator")) "__init__.py"
          then some initCode
          else fs p := by
  obtain ⟨c, hc⟩ := create_skeleton_code_ok ctx hT hD
  refine ⟨c, hc, ?_, pyJoin_init_ne_yml _, ?_⟩
  · rw [build_operator_skeleton_execute, hc]
    rfl
  · intro fs p
    rfl

/-- Witness for C3 (amended): with all parameters at their defaults the two
files are written under `FIFTYONE_PLUGINS_DIR/my_operator`. -/
theorem c3_skeleton_execute_amended_witness :
    (build_operator_skeleton_execute {} "/plugins").map
        (fun ws => ws.map FSWrite.path) =
      .ok ["/plugins/my_operator/__init__.py",
        "/plugins/my_operator/fiftyone.yml"] := by
  obtain ⟨c, _, h2, _, _⟩ := c3_skeleton_execute_amended {} "/plugins"
    (fun h => by simp at h) (by simp [ValidDelegation])
  rw [h2]
  rfl

/-- **C4** — for every parameter mapping, the code string shown in the
wizard's Preview Code step equals, character for character, the string
written to `__init__.py` by execute on the same parameters: both are the
result of `_create_operator_skeleton_code` on those parameters. -/
theorem c4_preview_equals_written (ctx : SkelCtx) (env : String)
    (elems : List Elem) (writes : List FSWrite)
    (hflow : operator_skeleton_view_code_flow ctx = .ok elems)
    (hexec : build_operator_skeleton_execute ctx env = .ok writes) :
    ∃ e ∈ elems, e.name = "operator_skeleton_view_code" ∧
      ∃ w ∈ writes,
        w.path = pyJoin (pyJoin (ctx.directory_absolute_path.getD env)
          (ctx.plugin_subdirectory.getD "my_operator")) "__init__.py" ∧
        e.defaultVal = w.content ∧
        create_operator_skeleton_code ctx = .ok e.defaultVal := by
  cases hc : create_operator_skeleton_code ctx with
  | error msg =>
      rw [operator_skeleton_view_code_flow, hc] at hflow
      simp [bind, Except.bind] at hflow
  | ok c =>
      rw [operator_skeleton_view_code_flow, hc] at hflow
      rw [build_operator_skeleton_execute, hc] at hexec
      simp only [bind, Except.bind, pure, Except.pure, Except.ok.injEq]
        at hflow hexec
      subst hflow
      subst hexec
      refine ⟨{ kind := "str", name := "operator_skeleton_view_code",
                label := "Python Code",
                description := "Preview of your `__init__.py` file",
                defaultVal := c }, by simp, rfl, ?_⟩
      exact ⟨⟨pyJoin (pyJoin (ctx.directory_absolute_path.getD env)
        (ctx.plugin_subdirectory.getD "my_operator")) "__init__.py", c⟩,
        by simp, rfl, rfl, rfl⟩

/-- Witness for C4: at the default parameters both the preview element and
the write exist and carry the same string. -/
theorem c4_preview_equals_written_witness :
    ((operator_skeleton_view_code_flow {}).map
        (fun es => es.map Elem.defaultVal)).map (fun l => l.getLast?) =
      ((build_operator_skeleton_execute {} "/plugins").map
        (fun ws => ws.map FSWrite.content)).map (fun l => l.head?) := by
  obtain ⟨e, he, hen, w, hw, hwp, hed, hok⟩ :=
    c4_preview_equals_written {} "/plugins" _ _ rfl rfl
  rfl

end FoPlugins
